import Mathlib

/-!
Shallow embedding of the certificate-expiration core of the `certs` repository
(`server/core/expiration.py`, data model from `certcore/schema.py`).

Modelling conventions:
* absolute instants (certificate expiry, the current UTC clock reading) are
  integers counting seconds; a Python `timedelta`'s `.days` field is the
  floor of the difference in seconds divided by 86400;
* Python exceptions are modelled with `Except String`: a raising computation
  returns `Except.error msg` where `msg` is `str(e)`;
* the network is modelled by an explicit oracle `fetch : String → Except String Int`
  giving, per domain, either the parsed certificate expiry instant or the
  failure raised while fetching it;
* `asyncio.as_completed` over one task per domain is modelled by a schedule
  `t : Nat → Nat` assigning each input position its completion time; the
  emitted order is the input positions stably sorted by completion time.
-/

/-- Data model from `certcore/schema.py`: frozen dataclass `CertExpirationData`. -/
structure CertExpirationData where
  expiry_date : Int
  time_remaining_str : String
  is_expired : Bool
  days_remaining : Int
deriving DecidableEq, Repr

/-- Data model from `certcore/schema.py`: frozen dataclass `CertExpirationResult`;
`data` and `error` are independently optional fields, as in the source. -/
structure CertExpirationResult where
  domain : String
  data : Option CertExpirationData
  error : Option String
deriving DecidableEq, Repr

/-- Python `", ".join(parts)`. -/
def joinComma : List String → String
  | [] => ""
  | [s] => s
  | s :: rest => s ++ ", " ++ joinComma rest

/-- Embedding of `_format_time_remaining` (expiration.py lines 8-26).
Python `//` and `%` are floor division and its remainder, hence `Int.fdiv` /
`Int.fmod`. -/
def _format_time_remaining (days_remaining : Int) : String :=
  if days_remaining < 0 then
    "EXPIRED"
  else
    let years := Int.fdiv days_remaining 365
    let remaining_days := Int.fmod days_remaining 365
    let months := Int.fdiv remaining_days 30
    let days := Int.fmod remaining_days 30
    let parts : List String := []
    let parts := if years > 0 then
        parts ++ [toString years ++ " year" ++ (if years != 1 then "s" else "")]
      else parts
    let parts := if months > 0 then
        parts ++ [toString months ++ " month" ++ (if months != 1 then "s" else "")]
      else parts
    let parts := if days > 0 ∨ parts = [] then
        parts ++ [toString days ++ " day" ++ (if days != 1 then "s" else "")]
      else parts
    joinComma parts

/-- Embedding of `get_cert_expiration_data` (expiration.py lines 54-61), the
Expiration Calculator, as a function of the fetched expiry instant and the
single clock reading `now` taken at line 57.  `(expiry_time - now).days` is
the floor of the second difference over 86400. -/
def get_cert_expiration_data (expiry_time : Int) (now : Int) : CertExpirationData :=
  let days_remaining := Int.fdiv (expiry_time - now) 86400
  { expiry_date := expiry_time
    time_remaining_str := _format_time_remaining days_remaining
    is_expired := decide (days_remaining < 0)
    days_remaining := days_remaining }

/-- Embedding of `get_cert_expiration_no_raise` (expiration.py lines 64-70),
the Safe Single-Check Wrapper.  The only failure source inside the `try`
block is the Fetcher, modelled by the `fetch` oracle. -/
def get_cert_expiration_no_raise (fetch : String → Except String Int)
    (now : Int) (domain : String) : CertExpirationResult :=
  match fetch domain with
  | Except.ok expiry_time =>
      { domain := domain
        data := some (get_cert_expiration_data expiry_time now)
        error := none }
  | Except.error e =>
      { domain := domain, data := none, error := some e }

/-- One step of the completion-order schedule: insert task `p` into an
already completion-ordered list, before the first task that completes
strictly later. -/
def insertByCompletion (t : Nat → Nat) (p : Nat × String) :
    List (Nat × String) → List (Nat × String)
  | [] => [p]
  | q :: rest =>
      if t p.1 < t q.1 then p :: q :: rest else q :: insertByCompletion t p rest

/-- Denotation of `asyncio.as_completed(tasks)` (expiration.py line 81): the
tasks, tagged with their input position, ordered by completion time `t`. -/
def asCompleted (t : Nat → Nat) : List (Nat × String) → List (Nat × String)
  | [] => []
  | p :: rest => insertByCompletion t p (asCompleted t rest)

/-- Embedding of `get_cert_expiration_many` (expiration.py lines 73-83): one
task per input domain, results yielded in completion order. -/
def get_cert_expiration_many (fetch : String → Except String Int) (now : Int)
    (t : Nat → Nat) (domains : List String) : List CertExpirationResult :=
  (asCompleted t domains.enum).map
    (fun p => get_cert_expiration_no_raise fetch now p.2)

/-- Environment for one Fetcher call: outcome of `asyncio.open_connection`
(including the TLS handshake), outcome of reading and parsing the
certificate's `notAfter` field, and whether closing the writer raises. -/
structure FetchEnv where
  connect : Except String Unit
  certParse : Except String Int
  closeRaises : Bool

/-- Observable connection events of one Fetcher call. -/
inductive ConnEvent where
  | opened
  | closeAttempted
deriving DecidableEq, Repr

/-- The raw `writer.close(); await writer.wait_closed()` pair, which raises
exactly when the peer tore the session down abruptly. -/
def close_writer (closeRaises : Bool) : Except String Unit :=
  if closeRaises then Except.error "connection close failed" else Except.ok ()

/-- Embedding of `_safe_close_writer` (expiration.py lines 29-34): the close
is attempted and any exception it raises is swallowed by `except ... pass`. -/
def _safe_close_writer (closeRaises : Bool) : Except String Unit :=
  match close_writer closeRaises with
  | Except.ok _ => Except.ok ()
  | Except.error _ => Except.ok ()

/-- Embedding of `_get_certificate_expiration_time` (expiration.py lines
37-51).  If `open_connection` raises, nothing was acquired and the error
propagates.  Otherwise the `try` body's outcome is `env.certParse` and the
`finally` clause runs `_safe_close_writer`; per Python semantics an exception
raised by the `finally` clause would replace the body's outcome, which the
`match` on the close result captures. -/
def _get_certificate_expiration_time (env : FetchEnv) :
    Except String Int × List ConnEvent :=
  match env.connect with
  | Except.error e => (Except.error e, [])
  | Except.ok _ =>
      match _safe_close_writer env.closeRaises with
      | Except.error ce => (Except.error ce, [ConnEvent.opened, ConnEvent.closeAttempted])
      | Except.ok _ => (env.certParse, [ConnEvent.opened, ConnEvent.closeAttempted])

/-- Reference decomposition following the spec's words (§4.1): `days // 365`
whole years, `(days mod 365) // 30` whole months, `(days mod 365) mod 30`
leftover days; a year clause only if years > 0, a month clause only if
months > 0, a day clause if the leftover days are > 0 or no other clause was
produced; clauses joined by ", " with the singular noun exactly when the
count equals 1. -/
def format_remaining_spec (days : Int) : String :=
  if days < 0 then "EXPIRED"
  else
    let years := Int.fdiv days 365
    let months := Int.fdiv (Int.fmod days 365) 30
    let leftover := Int.fmod (Int.fmod days 365) 30
    let yearClauses : List String :=
      if years > 0 then
        [toString years ++ (if years = 1 then " year" else " years")]
      else []
    let monthClauses : List String :=
      if months > 0 then
        [toString months ++ (if months = 1 then " month" else " months")]
      else []
    let dayClauses : List String :=
      if leftover > 0 ∨ yearClauses ++ monthClauses = [] then
        [toString leftover ++ (if leftover = 1 then " day" else " days")]
      else []
    joinComma (yearClauses ++ monthClauses ++ dayClauses)

example : get_cert_expiration_no_raise (fun _ => Except.ok 100) 0 "x" =
    ⟨"x", some ⟨100, "0 days", false, 0⟩, none⟩ := by decide

example : _format_time_remaining 366 = "1 year, 1 day" := by decide
example : _format_time_remaining 45 = "1 month, 15 days" := by decide
example : _format_time_remaining 0 = "0 days" := by decide
example : _format_time_remaining 360 = "12 months" := by decide

example :
    asCompleted (fun i => [10, 50, 5].getD i 0) ([("A" : String), "B", "C"].enum) =
      [(2, "C"), (0, "A"), (1, "B")] := by decide

lemma fdiv_bounds (a : Int) {b : Int} (hb : 0 < b) :
    b * Int.fdiv a b ≤ a ∧ a < b * (Int.fdiv a b + 1) := by
  have h := Int.fmod_add_fdiv a b
  have h1 := Int.fmod_nonneg' a hb
  have h2 := Int.fmod_lt_of_pos a hb
  constructor
  · linarith
  · have hexp : b * (Int.fdiv a b + 1) = b * Int.fdiv a b + b := by ring
    linarith

lemma fdiv_le_fdiv_of_le {a b : Int} {c : Int} (hc : 0 < c) (h : a ≤ b) :
    Int.fdiv a c ≤ Int.fdiv b c := by
  by_contra hlt
  push_neg at hlt
  have ha := fdiv_bounds a hc
  have hb := fdiv_bounds b hc
  have hstep : Int.fdiv b c + 1 ≤ Int.fdiv a c := hlt
  have hmul := mul_le_mul_of_nonneg_left hstep (le_of_lt hc)
  linarith

/-- C1: the Safe Single-Check Wrapper never raises; on Calculator success it
returns the success variant with the complete record and `error = none`, on
any Calculator failure the failure variant with the failure's description and
`data = none`, so exactly one of `data` / `error` is populated in every
outcome. -/
theorem check_safe_exactly_one (fetch : String → Except String Int)
    (now : Int) (domain : String) :
    ((get_cert_expiration_no_raise fetch now domain).data.isSome ↔
      (get_cert_expiration_no_raise fetch now domain).error = none)
    ∧ (∀ x, fetch domain = Except.ok x →
        get_cert_expiration_no_raise fetch now domain =
          ⟨domain, some (get_cert_expiration_data x now), none⟩)
    ∧ (∀ e, fetch domain = Except.error e →
        get_cert_expiration_no_raise fetch now domain = ⟨domain, none, some e⟩) := by
  unfold get_cert_expiration_no_raise
  cases h : fetch domain <;> simp

theorem check_safe_exactly_one_witness :
    get_cert_expiration_no_raise (fun _ => Except.ok 100) 0 "example.com" =
      ⟨"example.com", some (get_cert_expiration_data 100 0), none⟩ :=
  (check_safe_exactly_one (fun _ => Except.ok 100) 0 "example.com").2.1 100 rfl

/-- C4: for every negative day count the Formatter returns exactly
`"EXPIRED"`. -/
theorem format_remaining_negative (d : Int) (h : d < 0) :
    _format_time_remaining d = "EXPIRED" := by
  unfold _format_time_remaining
  rw [if_pos h]

theorem format_remaining_negative_witness :
    _format_time_remaining (-5) = "EXPIRED" :=
  format_remaining_negative (-5) (by decide)

/-- C6: every record the Calculator produces satisfies
`is_expired = (days_remaining < 0)` and carries a `time_remaining_str` that
is exactly the Formatter applied to its own `days_remaining`. -/
theorem record_derived_fields (expiry_time now : Int) :
    ((get_cert_expiration_data expiry_time now).is_expired = true ↔
      (get_cert_expiration_data expiry_time now).days_remaining < 0)
    ∧ (get_cert_expiration_data expiry_time now).time_remaining_str =
      _format_time_remaining ((get_cert_expiration_data expiry_time now).days_remaining) := by
  unfold get_cert_expiration_data
  simp

/-- C7: the Calculator's `days_remaining` is exactly the floor of the
whole-day difference between the expiry instant and the single clock reading
`now`: it is the unique integer `d` with
`86400 * d ≤ expiry_time - now < 86400 * (d + 1)`, and every time-dependent
field of the record is derived from that one reading. -/
theorem days_remaining_floor (expiry_time now : Int) :
    86400 * (get_cert_expiration_data expiry_time now).days_remaining ≤ expiry_time - now
    ∧ expiry_time - now <
        86400 * ((get_cert_expiration_data expiry_time now).days_remaining + 1)
    ∧ (∀ d : Int, 86400 * d ≤ expiry_time - now →
        expiry_time - now < 86400 * (d + 1) →
        d = (get_cert_expiration_data expiry_time now).days_remaining)
    ∧ get_cert_expiration_data expiry_time now =
        { expiry_date := expiry_time
          time_remaining_str :=
            _format_time_remaining (Int.fdiv (expiry_time - now) 86400)
          is_expired := decide (Int.fdiv (expiry_time - now) 86400 < 0)
          days_remaining := Int.fdiv (expiry_time - now) 86400 } := by
  have hb := fdiv_bounds (expiry_time - now) (b := 86400) (by decide)
  refine ⟨hb.1, hb.2, ?_, rfl⟩
  intro d h1 h2
  have hq1 := hb.1
  have hq2 := hb.2
  have hd : (get_cert_expiration_data expiry_time now).days_remaining =
      Int.fdiv (expiry_time - now) 86400 := rfl
  rw [hd]
  omega

theorem days_remaining_floor_witness :
    (1 : Int) = (get_cert_expiration_data 100000 0).days_remaining :=
  (days_remaining_floor 100000 0).2.2.1 1 (by decide) (by decide)

lemma insertByCompletion_perm (t : Nat → Nat) (p : Nat × String)
    (l : List (Nat × String)) :
    List.Perm (insertByCompletion t p l) (p :: l) := by
  induction l with
  | nil => simp [insertByCompletion]
  | cons q rest ih =>
      unfold insertByCompletion
      split
      · exact List.Perm.refl _
      · exact (ih.cons q).trans (List.Perm.swap p q rest)

lemma asCompleted_perm (t : Nat → Nat) (l : List (Nat × String)) :
    List.Perm (asCompleted t l) l := by
  induction l with
  | nil => exact List.Perm.refl _
  | cons p rest ih =>
      exact (insertByCompletion_perm t p (asCompleted t rest)).trans (ih.cons p)

lemma insertByCompletion_sorted (t : Nat → Nat) (p : Nat × String)
    (l : List (Nat × String))
    (h : List.Pairwise (fun a b : Nat × String => t a.1 ≤ t b.1) l) :
    List.Pairwise (fun a b : Nat × String => t a.1 ≤ t b.1)
      (insertByCompletion t p l) := by
  induction l with
  | nil => simp [insertByCompletion]
  | cons q rest ih =>
      rw [List.pairwise_cons] at h
      unfold insertByCompletion
      split
      · rename_i hlt
        refine List.pairwise_cons.mpr ⟨?_, List.pairwise_cons.mpr ⟨h.1, h.2⟩⟩
        intro x hx
        rcases List.mem_cons.mp hx with rfl | hx2
        · exact le_of_lt hlt
        · exact le_trans (le_of_lt hlt) (h.1 x hx2)
      · rename_i hge
        refine List.pairwise_cons.mpr ⟨?_, ih h.2⟩
        intro x hx
        have hx3 : x ∈ p :: rest :=
          (insertByCompletion_perm t p rest).mem_iff.mp hx
        rcases List.mem_cons.mp hx3 with rfl | hx4
        · exact Nat.le_of_not_lt hge
        · exact h.1 x hx4

lemma asCompleted_sorted (t : Nat → Nat) (l : List (Nat × String)) :
    List.Pairwise (fun a b : Nat × String => t a.1 ≤ t b.1) (asCompleted t l) := by
  induction l with
  | nil => exact List.Pairwise.nil
  | cons p rest ih => exact insertByCompletion_sorted t p _ ih

lemma enum_map_snd_comp (g : String → CertExpirationResult) (l : List String) :
    l.enum.map (fun p => g p.2) = l.map g := by
  have h1 : l.enum.map (fun p => g p.2) = (l.enum.map Prod.snd).map g := by
    rw [List.map_map]
    rfl
  rw [h1, List.enum, List.enumFrom_map_snd]

/-- C2: `get_cert_expiration_many` yields exactly one outcome per input
domain (duplicates included): the emitted list is a permutation of the
per-domain wrapper results, so it has length `domains.length` and contains
each domain's outcome; a domain whose fetch fails yields the failure variant
and does not prevent the other domains' outcomes from being emitted. -/
theorem check_many_one_per_domain (fetch : String → Except String Int)
    (now : Int) (t : Nat → Nat) (domains : List String) :
    (get_cert_expiration_many fetch now t domains).length = domains.length
    ∧ List.Perm (get_cert_expiration_many fetch now t domains)
        (domains.map (get_cert_expiration_no_raise fetch now))
    ∧ (∀ d ∈ domains,
        get_cert_expiration_no_raise fetch now d ∈
          get_cert_expiration_many fetch now t domains)
    ∧ (∀ d e, fetch d = Except.error e →
        get_cert_expiration_no_raise fetch now d = ⟨d, none, some e⟩) := by
  have hperm : List.Perm (get_cert_expiration_many fetch now t domains)
      (domains.map (get_cert_expiration_no_raise fetch now)) := by
    unfold get_cert_expiration_many
    have h1 := (asCompleted_perm t domains.enum).map
      (fun p => get_cert_expiration_no_raise fetch now p.2)
    rw [enum_map_snd_comp] at h1
    exact h1
  refine ⟨?_, hperm, ?_, ?_⟩
  · rw [hperm.length_eq, List.length_map]
  · intro d hd
    exact hperm.mem_iff.mpr (List.mem_map_of_mem _ hd)
  · intro d e he
    unfold get_cert_expiration_no_raise
    rw [he]

theorem check_many_one_per_domain_witness :
    get_cert_expiration_no_raise
        (fun s => if s = "a" then Except.ok 1000 else Except.error "resolution failed")
        0 "b" ∈
      get_cert_expiration_many
        (fun s => if s = "a" then Except.ok 1000 else Except.error "resolution failed")
        0 (fun i => 1 - i) ["a", "b"] :=
  (check_many_one_per_domain
      (fun s => if s = "a" then Except.ok 1000 else Except.error "resolution failed")
      0 (fun i => 1 - i) ["a", "b"]).2.2.1 "b" (by simp)

/-- C3: `get_cert_expiration_many` emits outcomes in completion order, not
input order: among the tasks started for one call, a task that completes
strictly earlier is emitted at a strictly earlier position, whatever the two
domains' input positions; with completion times 10ms/50ms/5ms for input order
A, B, C the emission order is C, A, B. -/
theorem check_many_completion_order (fetch : String → Except String Int)
    (now : Int) (t : Nat → Nat) (domains : List String) :
    (∀ (i j : Nat) (x y : Nat × String),
        (asCompleted t domains.enum)[i]? = some x →
        (asCompleted t domains.enum)[j]? = some y →
        t x.1 < t y.1 → i < j)
    ∧ get_cert_expiration_many fetch now t domains =
        (asCompleted t domains.enum).map
          (fun p => get_cert_expiration_no_raise fetch now p.2)
    ∧ get_cert_expiration_many fetch now (fun i => [10, 50, 5].getD i 0)
        ["A", "B", "C"] =
      [get_cert_expiration_no_raise fetch now "C",
       get_cert_expiration_no_raise fetch now "A",
       get_cert_expiration_no_raise fetch now "B"] := by
  refine ⟨?_, rfl, rfl⟩
  intro i j x y hx hy hlt
  by_contra hij
  push_neg at hij
  have hsorted := asCompleted_sorted t domains.enum
  rcases Nat.lt_or_ge j i with hji | hji
  · obtain ⟨hjlen, hjget⟩ := List.getElem?_eq_some_iff.mp hy
    obtain ⟨hilen, higet⟩ := List.getElem?_eq_some_iff.mp hx
    have hle := (List.pairwise_iff_getElem.mp hsorted) j i hjlen hilen hji
    rw [hjget, higet] at hle
    exact absurd hlt (Nat.not_lt.mpr hle)
  · have hji2 : i = j := Nat.le_antisymm hji hij
    subst hji2
    rw [hx] at hy
    have hxy : x = y := by injection hy
    subst hxy
    exact absurd hlt (Nat.lt_irrefl _)

theorem check_many_completion_order_witness :
    ((0 : Nat) < 1) ∧ ((1 : Nat) < 2) :=
  ⟨(check_many_completion_order (fun _ => Except.error "unreachable") 0
      (fun i => [10, 50, 5].getD i 0) ["A", "B", "C"]).1
      0 1 (2, "C") (0, "A") (by decide) (by decide) (by decide),
   (check_many_completion_order (fun _ => Except.error "unreachable") 0
      (fun i => [10, 50, 5].getD i 0) ["A", "B", "C"]).1
      1 2 (0, "A") (1, "B") (by decide) (by decide) (by decide)⟩

/-- C8: once the connection is established the Fetcher attempts the close on
every exit path — whether reading/parsing the certificate field succeeds or
fails — and a failure raised while closing is swallowed by
`_safe_close_writer`, so the call's outcome is exactly the body's outcome:
a fetched expiry instant is never masked and an original failure is never
replaced by a close failure. -/
theorem fetcher_always_closes (env : FetchEnv) :
    (_safe_close_writer env.closeRaises = Except.ok ())
    ∧ (∀ u, env.connect = Except.ok u →
        (_get_certificate_expiration_time env).2 =
          [ConnEvent.opened, ConnEvent.closeAttempted]
        ∧ (_get_certificate_expiration_time env).1 = env.certParse)
    ∧ (∀ e, env.connect = Except.error e →
        (_get_certificate_expiration_time env).1 = Except.error e) := by
  have hclose : _safe_close_writer env.closeRaises = Except.ok () := by
    unfold _safe_close_writer close_writer
    cases env.closeRaises <;> simp
  refine ⟨hclose, ?_, ?_⟩
  · intro u hconn
    unfold _get_certificate_expiration_time
    rw [hconn, hclose]
    exact ⟨rfl, rfl⟩
  · intro e hconn
    unfold _get_certificate_expiration_time
    rw [hconn]

theorem fetcher_always_closes_witness :
    (_get_certificate_expiration_time
        ⟨Except.ok (), Except.error "parse failed", true⟩).2 =
      [ConnEvent.opened, ConnEvent.closeAttempted]
    ∧ (_get_certificate_expiration_time
        ⟨Except.ok (), Except.error "parse failed", true⟩).1 =
      Except.error "parse failed" :=
  (fetcher_always_closes ⟨Except.ok (), Except.error "parse failed", true⟩).2.1 () rfl

/-- C9: for a fixed fetched expiry instant, `days_remaining` is monotonically
non-increasing in the clock reading: two calls to the Safe Single-Check
Wrapper on the same domain at clock readings `n1 ≤ n2`, with the Fetcher
returning the same expiry instant both times, both succeed and the second
record's `days_remaining` is at most the first's. -/
theorem days_remaining_antitone (fetch : String → Except String Int)
    (domain : String) (expiry_time n1 n2 : Int)
    (hf : fetch domain = Except.ok expiry_time) (h12 : n1 ≤ n2) :
    get_cert_expiration_no_raise fetch n1 domain =
      ⟨domain, some (get_cert_expiration_data expiry_time n1), none⟩
    ∧ get_cert_expiration_no_raise fetch n2 domain =
      ⟨domain, some (get_cert_expiration_data expiry_time n2), none⟩
    ∧ (get_cert_expiration_data expiry_time n2).days_remaining ≤
      (get_cert_expiration_data expiry_time n1).days_remaining := by
  refine ⟨?_, ?_, ?_⟩
  · unfold get_cert_expiration_no_raise
    rw [hf]
  · unfold get_cert_expiration_no_raise
    rw [hf]
  · have hsub : expiry_time - n2 ≤ expiry_time - n1 := by linarith
    exact fdiv_le_fdiv_of_le (by decide) hsub

theorem days_remaining_antitone_witness :
    get_cert_expiration_no_raise (fun _ => Except.ok 0) 0 "example.com" =
      ⟨"example.com", some (get_cert_expiration_data 0 0), none⟩
    ∧ get_cert_expiration_no_raise (fun _ => Except.ok 0) 86400 "example.com" =
      ⟨"example.com", some (get_cert_expiration_data 0 86400), none⟩
    ∧ (get_cert_expiration_data 0 86400).days_remaining ≤
      (get_cert_expiration_data 0 0).days_remaining :=
  days_remaining_antitone (fun _ => Except.ok 0) "example.com" 0 0 86400 rfl (by decide)

lemma append_s_eq (n : Int) (root : String) :
    toString n ++ root ++ (if n = 1 then "" else "s") =
      toString n ++ (if n = 1 then root else root ++ "s") := by
  by_cases h : n = 1
  · subst h
    simp
  · simp [h, String.append_assoc]

lemma joinComma_ne_empty (s : String) (rest : List String) (hs : 0 < s.length) :
    joinComma (s :: rest) ≠ "" := by
  have hlen : 0 < (joinComma (s :: rest)).length := by
    cases rest with
    | nil => simpa [joinComma] using hs
    | cons r t =>
        have hstep : joinComma (s :: r :: t) = s ++ ", " ++ joinComma (r :: t) := rfl
        rw [hstep, String.length_append, String.length_append]
        omega
  intro heq
  rw [heq] at hlen
  simp at hlen

lemma clause_len_pos (n : Int) (root sfx : String) (hroot : 0 < root.length) :
    0 < (toString n ++ root ++ sfx).length := by
  rw [String.length_append, String.length_append]
  omega

lemma format_time_remaining_eq_spec (d : Int) (h : 0 ≤ d) :
    _format_time_remaining d = format_remaining_spec d := by
  have hnot : ¬ d < 0 := not_lt.mpr h
  by_cases hy : Int.fdiv d 365 > 0 <;>
    by_cases hm : Int.fdiv (Int.fmod d 365) 30 > 0 <;>
      by_cases hl : Int.fmod (Int.fmod d 365) 30 > 0 <;>
        simp [_format_time_remaining, format_remaining_spec, hnot, hy, hm, hl,
          append_s_eq]

lemma format_time_remaining_ne_empty (d : Int) (h : 0 ≤ d) :
    _format_time_remaining d ≠ "" := by
  have hnot : ¬ d < 0 := not_lt.mpr h
  by_cases hy : Int.fdiv d 365 > 0 <;>
    by_cases hm : Int.fdiv (Int.fmod d 365) 30 > 0 <;>
      by_cases hl : Int.fmod (Int.fmod d 365) 30 > 0 <;>
        (simp only [_format_time_remaining, hnot, hy, hm, hl, if_true, if_false,
          List.nil_append, List.append_nil, ite_true, ite_false, if_neg, if_pos,
          List.cons_append, not_false_eq_true, gt_iff_lt]
         apply joinComma_ne_empty
         apply clause_len_pos
         decide)

/-- C5: for every non-negative day count the Formatter agrees with the
spec's reference decomposition (years `days // 365`, months
`(days mod 365) // 30`, leftover days `(days mod 365) mod 30`, year/month
clauses only when positive, a day clause when positive or no other clause,
", "-joined, singular exactly at count 1), is never the empty string, and
in particular maps 0, 365, 366 and 45 to `"0 days"`, `"1 year"`,
`"1 year, 1 day"` and `"1 month, 15 days"`. -/
theorem format_remaining_decomposition (d : Int) (h : 0 ≤ d) :
    _format_time_remaining d = format_remaining_spec d
    ∧ _format_time_remaining d ≠ ""
    ∧ _format_time_remaining 0 = "0 days"
    ∧ _format_time_remaining 365 = "1 year"
    ∧ _format_time_remaining 366 = "1 year, 1 day"
    ∧ _format_time_remaining 45 = "1 month, 15 days" :=
  ⟨format_time_remaining_eq_spec d h, format_time_remaining_ne_empty d h,
   by decide, by decide, by decide, by decide⟩

theorem format_remaining_decomposition_witness :
    _format_time_remaining 45 = format_remaining_spec 45 ∧
      _format_time_remaining 45 ≠ "" :=
  ⟨(format_remaining_decomposition 45 (by decide)).1,
   (format_remaining_decomposition 45 (by decide)).2.1⟩

/-- C10: the Formatter never normalizes twelve 30-day months into a year:
for day counts 360 to 364 the year count `days // 365` is 0 (so no year
clause is emitted) while the month count `(days mod 365) // 30` is 12, e.g.
`_format_time_remaining 360 = "12 months"`; for every non-negative input the
month count lies in 0..12 and the leftover-day count in 0..29. -/
theorem formatter_months_cap (d : Int) (_h : 0 ≤ d) :
    (0 ≤ Int.fdiv (Int.fmod d 365) 30 ∧ Int.fdiv (Int.fmod d 365) 30 ≤ 12
      ∧ 0 ≤ Int.fmod (Int.fmod d 365) 30 ∧ Int.fmod (Int.fmod d 365) 30 ≤ 29)
    ∧ (360 ≤ d → d ≤ 364 →
        Int.fdiv d 365 = 0 ∧ Int.fdiv (Int.fmod d 365) 30 = 12)
    ∧ _format_time_remaining 360 = "12 months"
    ∧ _format_time_remaining 361 = "12 months, 1 day"
    ∧ _format_time_remaining 364 = "12 months, 4 days" := by
  have hm0 : 0 ≤ Int.fmod d 365 := Int.fmod_nonneg' d (by decide)
  have hm1 : Int.fmod d 365 < 365 := Int.fmod_lt_of_pos d (by decide)
  have hq := fdiv_bounds (Int.fmod d 365) (b := 30) (by decide)
  have hl0 : 0 ≤ Int.fmod (Int.fmod d 365) 30 :=
    Int.fmod_nonneg' _ (by decide)
  have hl1 : Int.fmod (Int.fmod d 365) 30 < 30 :=
    Int.fmod_lt_of_pos _ (by decide)
  refine ⟨⟨?_, ?_, hl0, by omega⟩, ?_, by decide, by decide, by decide⟩
  · omega
  · omega
  · intro h360 h364
    have hy := fdiv_bounds d (b := 365) (by decide)
    have hy0 : Int.fdiv d 365 = 0 := by omega
    have hmodd : Int.fmod d 365 = d := by
      have := Int.fmod_add_fdiv d 365
      omega
    refine ⟨hy0, ?_⟩
    rw [hmodd]
    have hq2 := fdiv_bounds d (b := 30) (by decide)
    omega

theorem formatter_months_cap_witness :
    Int.fdiv 362 365 = 0 ∧ Int.fdiv (Int.fmod 362 365) 30 = 12 :=
  (formatter_months_cap 362 (by decide)).2.1 (by decide) (by decide)
